import Mathlib

/-!
Shallow embedding of the go-digital-twin core: the FeatureState and
DigitalTwin data model (pkg/twin), the Registry (pkg/registry) and the
PubSub event bus (pkg/messaging_sim).  Go maps are embedded as
association lists, `time.Now()` as an explicit `now : Nat` clock
argument, `interface\x7b\x7d` values as the inductive `Value`, and a Go
function returning `error` as a pair of an `Option` error and the
mutated receiver.  A buffered channel is embedded as a handle plus the
FIFO list of messages sitting in its buffer inside the bus state.
For the behaviour that depends on Go map values being references — a
FeatureState struct copy shares its underlying hash tables with the
stored feature — a second embedding below makes the reference
semantics explicit through a heap of allocated tables.
-/

namespace GoDigitalTwin

/-- Dynamic values stored in interface-typed fields (attributes,
properties, payloads).  `map` and `slice` stand for the non-comparable
Go dynamic types. -/
inductive Value where
  | str (s : String)
  | int (n : Int)
  | bool (b : Bool)
  | map (entries : List (String × String))
  | slice (elems : List String)
deriving DecidableEq

/-- Whether the dynamic type of the value is comparable in Go. -/
def Value.comparable : Value → Bool
  | .map _ => false
  | .slice _ => false
  | _ => true

/-- Go interface equality `a == b`: `some` is the boolean outcome,
`none` embeds the run-time panic raised when both operands have the
same non-comparable dynamic type.  Operands of different dynamic types
compare unequal without panicking. -/
def goEq : Value → Value → Option Bool
  | .str x, .str y => some (decide (x = y))
  | .int x, .int y => some (decide (x = y))
  | .bool x, .bool y => some (decide (x = y))
  | .map _, .map _ => none
  | .slice _, .slice _ => none
  | _, _ => some false

/-- Lookup in an association list embedding a Go map. -/
def lookupKey {α : Type} : List (String × α) → String → Option α
  | [], _ => none
  | (k', v) :: rest, k => if k' = k then some v else lookupKey rest k

/-- Go map assignment `m[k] = v`: replace the entry if present,
append it otherwise. -/
def insertKey {α : Type} : List (String × α) → String → α → List (String × α)
  | [], k, v => [(k, v)]
  | (k', v') :: rest, k, v =>
      if k' = k then (k, v) :: rest else (k', v') :: insertKey rest k v

/-- Go map `delete(m, k)`: drop the entry for `k` if present. -/
def removeKey {α : Type} : List (String × α) → String → List (String × α)
  | [], _ => []
  | (k', v') :: rest, k => if k' = k then rest else (k', v') :: removeKey rest k

/-! ## FeatureState (pkg/twin/featurestate.go) -/

/-- The state of a feature: current properties, desired properties,
definition identifiers, and the last-modification timestamp. -/
structure FeatureState where
  Properties : List (String × Value)
  DesiredProps : List (String × Value)
  Definition : List String
  LastModified : Nat
deriving DecidableEq

/-- `NewFeatureState`: empty maps, empty definition list, clock stamp. -/
def NewFeatureState (now : Nat) : FeatureState :=
  { Properties := [], DesiredProps := [], Definition := [], LastModified := now }

/-- `GetProperty`: lookup plus presence flag, embedded as `Option`. -/
def FeatureState.GetProperty (fs : FeatureState) (k : String) : Option Value :=
  lookupKey fs.Properties k

/-- `SetProperty`: map assignment and `LastModified = time.Now()`. -/
def FeatureState.SetProperty (fs : FeatureState) (k : String) (v : Value)
    (now : Nat) : FeatureState :=
  { fs with Properties := insertKey fs.Properties k v, LastModified := now }

/-- `RemoveProperty`: map delete and `LastModified = time.Now()`. -/
def FeatureState.RemoveProperty (fs : FeatureState) (k : String)
    (now : Nat) : FeatureState :=
  { fs with Properties := removeKey fs.Properties k, LastModified := now }

/-- `GetAllProperties` returns a copy of the properties map. -/
def FeatureState.GetAllProperties (fs : FeatureState) : List (String × Value) :=
  fs.Properties

/-- `GetDesiredProperty`: lookup plus presence flag. -/
def FeatureState.GetDesiredProperty (fs : FeatureState) (k : String) : Option Value :=
  lookupKey fs.DesiredProps k

/-- `SetDesiredProperty`: map assignment and `LastModified = time.Now()`. -/
def FeatureState.SetDesiredProperty (fs : FeatureState) (k : String) (v : Value)
    (now : Nat) : FeatureState :=
  { fs with DesiredProps := insertKey fs.DesiredProps k v, LastModified := now }

/-- `RemoveDesiredProperty`: map delete and `LastModified = time.Now()`. -/
def FeatureState.RemoveDesiredProperty (fs : FeatureState) (k : String)
    (now : Nat) : FeatureState :=
  { fs with DesiredProps := removeKey fs.DesiredProps k, LastModified := now }

/-- `GetAllDesiredProperties` returns a copy of the desired map. -/
def FeatureState.GetAllDesiredProperties (fs : FeatureState) : List (String × Value) :=
  fs.DesiredProps

/-- `SetDefinition`: copy the incoming list in and stamp `LastModified`. -/
def FeatureState.SetDefinition (fs : FeatureState) (ds : List String)
    (now : Nat) : FeatureState :=
  { fs with Definition := ds, LastModified := now }

/-- `GetDefinition` returns a copy of the definition list. -/
def FeatureState.GetDefinition (fs : FeatureState) : List String :=
  fs.Definition

/-! ## DigitalTwin (pkg/twin/twin.go) -/

/-- Twin-level errors of pkg/twin. -/
inductive TwinError where
  | FeatureNotFound
  | FeatureAlreadyExists
deriving DecidableEq

/-- A digital twin: identity, type, definition, attribute map, feature
map (features stored by value), and timestamps.  The Go field `Type` is
spelled `TwinType` because `Type` is reserved in Lean. -/
structure DigitalTwin where
  ID : String
  TwinType : String
  Definition : String
  Attributes : List (String × Value)
  Features : List (String × FeatureState)
  CreatedAt : Nat
  ModifiedAt : Nat
deriving DecidableEq

/-- `NewDigitalTwin(id, twinType)`: empty maps, both timestamps set to
the same `now`. -/
def NewDigitalTwin (id twinType : String) (now : Nat) : DigitalTwin :=
  { ID := id, TwinType := twinType, Definition := ""
    Attributes := [], Features := [], CreatedAt := now, ModifiedAt := now }

/-- `SetDefinition` on a twin. -/
def DigitalTwin.SetDefinition (dt : DigitalTwin) (d : String) (now : Nat) : DigitalTwin :=
  { dt with Definition := d, ModifiedAt := now }

/-- `GetDefinition` on a twin. -/
def DigitalTwin.GetDefinition (dt : DigitalTwin) : String :=
  dt.Definition

/-- `GetAttribute`: lookup plus presence flag. -/
def DigitalTwin.GetAttribute (dt : DigitalTwin) (k : String) : Option Value :=
  lookupKey dt.Attributes k

/-- `SetAttribute`: map assignment and `ModifiedAt = time.Now()`. -/
def DigitalTwin.SetAttribute (dt : DigitalTwin) (k : String) (v : Value)
    (now : Nat) : DigitalTwin :=
  { dt with Attributes := insertKey dt.Attributes k v, ModifiedAt := now }

/-- `RemoveAttribute`: map delete and `ModifiedAt = time.Now()`. -/
def DigitalTwin.RemoveAttribute (dt : DigitalTwin) (k : String)
    (now : Nat) : DigitalTwin :=
  { dt with Attributes := removeKey dt.Attributes k, ModifiedAt := now }

/-- `GetAllAttributes` returns a copy of the attribute map. -/
def DigitalTwin.GetAllAttributes (dt : DigitalTwin) : List (String × Value) :=
  dt.Attributes

/-- `GetFeature`: the map read `feature, exists := dt.Features[id]`;
because features are stored by value, the returned `FeatureState` is a
copy of the stored one. -/
def DigitalTwin.GetFeature (dt : DigitalTwin) (id : String) : Option FeatureState :=
  lookupKey dt.Features id

/-- `AddFeature`: fails with `ErrFeatureAlreadyExists` if the id is
present, otherwise stores the feature and stamps `ModifiedAt`. -/
def DigitalTwin.AddFeature (dt : DigitalTwin) (id : String) (fs : FeatureState)
    (now : Nat) : Option TwinError × DigitalTwin :=
  match lookupKey dt.Features id with
  | some _ => (some .FeatureAlreadyExists, dt)
  | none =>
      (none, { dt with Features := insertKey dt.Features id fs, ModifiedAt := now })

/-- `UpdateFeature`: fails with `ErrFeatureNotFound` if the id is
absent, otherwise replaces the stored feature and stamps `ModifiedAt`. -/
def DigitalTwin.UpdateFeature (dt : DigitalTwin) (id : String) (fs : FeatureState)
    (now : Nat) : Option TwinError × DigitalTwin :=
  match lookupKey dt.Features id with
  | none => (some .FeatureNotFound, dt)
  | some _ =>
      (none, { dt with Features := insertKey dt.Features id fs, ModifiedAt := now })

/-- `RemoveFeature`: fails with `ErrFeatureNotFound` if the id is
absent, otherwise deletes the entry and stamps `ModifiedAt`. -/
def DigitalTwin.RemoveFeature (dt : DigitalTwin) (id : String)
    (now : Nat) : Option TwinError × DigitalTwin :=
  match lookupKey dt.Features id with
  | none => (some .FeatureNotFound, dt)
  | some _ =>
      (none, { dt with Features := removeKey dt.Features id, ModifiedAt := now })

/-- `GetAllFeatures` returns a copy of the feature map. -/
def DigitalTwin.GetAllFeatures (dt : DigitalTwin) : List (String × FeatureState) :=
  dt.Features

/-! ## Registry (pkg/registry/registry.go) -/

/-- Registry-level errors. -/
inductive RegError where
  | TwinNotFound
  | TwinAlreadyExists
deriving DecidableEq

/-- The registry map `twins : map[string]*twin.DigitalTwin`, embedded as
the list of stored twins keyed by their `ID` field. -/
structure Registry where
  twins : List DigitalTwin
deriving DecidableEq

/-- The map read `r.twins[id]`. -/
def findTwin : List DigitalTwin → String → Option DigitalTwin
  | [], _ => none
  | t :: ts, id => if t.ID = id then some t else findTwin ts id

/-- The map assignment `r.twins[dt.ID] = dt` when the id is present:
replace the stored entry. -/
def replaceTwin : List DigitalTwin → DigitalTwin → List DigitalTwin
  | [], _ => []
  | t :: ts, dt => if t.ID = dt.ID then dt :: ts else t :: replaceTwin ts dt

/-- `delete(r.twins, id)`. -/
def deleteTwin : List DigitalTwin → String → List DigitalTwin
  | [], _ => []
  | t :: ts, id => if t.ID = id then ts else t :: deleteTwin ts id

/-- `NewRegistry`. -/
def NewRegistry : Registry := { twins := [] }

/-- `Create`: fails with `ErrTwinAlreadyExists` if the id is already
present, otherwise inserts. -/
def Registry.Create (r : Registry) (dt : DigitalTwin) : Option RegError × Registry :=
  match findTwin r.twins dt.ID with
  | some _ => (some .TwinAlreadyExists, r)
  | none => (none, { twins := r.twins ++ [dt] })

/-- `Get`: returns the stored twin or `ErrTwinNotFound`. -/
def Registry.Get (r : Registry) (id : String) : Except RegError DigitalTwin :=
  match findTwin r.twins id with
  | some dt => .ok dt
  | none => .error .TwinNotFound

/-- `Update`: fails with `ErrTwinNotFound` if the id is absent,
otherwise replaces the stored entry. -/
def Registry.Update (r : Registry) (dt : DigitalTwin) : Option RegError × Registry :=
  match findTwin r.twins dt.ID with
  | none => (some .TwinNotFound, r)
  | some _ => (none, { twins := replaceTwin r.twins dt })

/-- `Delete`: fails with `ErrTwinNotFound` if the id is absent,
otherwise removes the entry. -/
def Registry.Delete (r : Registry) (id : String) : Option RegError × Registry :=
  match findTwin r.twins id with
  | none => (some .TwinNotFound, r)
  | some _ => (none, { twins := deleteTwin r.twins id })

/-- `List`: snapshot of all stored twins. -/
def Registry.ListTwins (r : Registry) : List DigitalTwin :=
  r.twins

/-- The scan loop of `FindByAttribute`: for each twin whose attribute
`k` is present, evaluate `attrValue == value`; `none` embeds the panic
propagating out of the loop when a comparison is undefined. -/
def findByAttrScan (l : List DigitalTwin) (k : String) (v : Value) :
    Option (List DigitalTwin) :=
  match l with
  | [] => some []
  | t :: ts =>
      match t.GetAttribute k with
      | none => findByAttrScan ts k v
      | some w =>
          match goEq w v with
          | none => none
          | some true => (findByAttrScan ts k v).map (t :: ·)
          | some false => findByAttrScan ts k v

/-- `FindByAttribute`: linear scan collecting the twins whose attribute
`k` is present and compares equal to `v`. -/
def Registry.FindByAttribute (r : Registry) (k : String) (v : Value) :
    Option (List DigitalTwin) :=
  findByAttrScan r.twins k v

/-- `FindByFeature`: linear scan collecting the twins holding a feature
named `fid`. -/
def Registry.FindByFeature (r : Registry) (fid : String) : List DigitalTwin :=
  r.twins.filter (fun t => (t.GetFeature fid).isSome)

/-! ## PubSub event bus (pkg/messaging_sim/pubsub.go) -/

/-- A bus message. -/
structure Message where
  Topic : String
  Payload : Value
deriving DecidableEq

/-- The buffered channel `make(chan Message, 10)` handed to a
subscriber: channel identity (Go compares channels by reference) plus
the FIFO buffer contents. -/
structure Channel where
  id : Nat
  buf : List Message
deriving DecidableEq

/-- Capacity of every subscriber channel. -/
def chanCap : Nat := 10

/-- The bus: `subscribers : map[string][]chan Message` plus a counter
allocating fresh channel identities. -/
structure PubSub where
  subscribers : List (String × List Channel)
  nextId : Nat
deriving DecidableEq

/-- `NewPubSub`. -/
def NewPubSub : PubSub := { subscribers := [], nextId := 0 }

/-- `Subscribe`: allocate a fresh buffered channel and append it to the
topic's subscriber list (creating the entry when the topic is new);
returns the channel handle and the new bus state. -/
def PubSub.Subscribe (ps : PubSub) (topic : String) : Nat × PubSub :=
  let ch : Channel := { id := ps.nextId, buf := [] }
  let cur := (lookupKey ps.subscribers topic).getD []
  (ps.nextId,
   { subscribers := insertKey ps.subscribers topic (cur ++ [ch])
     nextId := ps.nextId + 1 })

/-- The removal loop of `Unsubscribe`: drop the first channel whose
identity matches the handle, leave the list unchanged otherwise. -/
def removeFirstChan : List Channel → Nat → List Channel
  | [], _ => []
  | c :: rest, h => if c.id = h then rest else c :: removeFirstChan rest h

/-- `Unsubscribe`: no-op for an unknown topic; otherwise remove the
matching channel, and delete the topic entry when its list is empty. -/
def PubSub.Unsubscribe (ps : PubSub) (topic : String) (h : Nat) : PubSub :=
  match lookupKey ps.subscribers topic with
  | none => ps
  | some subs =>
      let subs' := removeFirstChan subs h
      if subs'.length = 0 then
        { ps with subscribers := removeKey ps.subscribers topic }
      else
        { ps with subscribers := insertKey ps.subscribers topic subs' }

/-- The non-blocking `select` send: enqueue when the buffer has
capacity, silently drop the message otherwise. -/
def sendNonBlocking (c : Channel) (m : Message) : Channel :=
  if c.buf.length < chanCap then { c with buf := c.buf ++ [m] } else c

/-- `Publish`: discard silently when the topic has no subscribers;
otherwise attempt a non-blocking send to every subscriber channel. -/
def PubSub.Publish (ps : PubSub) (topic : String) (payload : Value) : PubSub :=
  match lookupKey ps.subscribers topic with
  | none => ps
  | some subs =>
      let msg : Message := { Topic := topic, Payload := payload }
      { ps with
        subscribers := insertKey ps.subscribers topic
          (subs.map (fun c => sendNonBlocking c msg)) }

/-- `Close`: clear all subscription state. -/
def PubSub.Close (ps : PubSub) : PubSub :=
  { ps with subscribers := [] }

/-- A sequence of `Publish` calls to one topic, left to right. -/
def PubSub.publishAll (ps : PubSub) (topic : String) (payloads : List Value) : PubSub :=
  payloads.foldl (fun s p => s.Publish topic p) ps

/-- The invariant of the subscriptions map: every topic entry holds at
least one subscriber channel. -/
def PubSub.wfTopics (ps : PubSub) : Bool :=
  ps.subscribers.all (fun p => !p.2.isEmpty)

/-! ## Concrete example states used by the witnesses -/

/-- A twin with attribute `"a" = "x"`. -/
def t1Ex : DigitalTwin :=
  (NewDigitalTwin "t1" "sensor" 0).SetAttribute "a" (Value.str "x") 1

/-- A twin with no attributes. -/
def t2Ex : DigitalTwin := NewDigitalTwin "t2" "sensor" 0

/-- A registry holding `t1Ex` and `t2Ex`. -/
def rEx : Registry := { twins := [t1Ex, t2Ex] }

/-- A twin whose attribute `"a"` holds a non-comparable map value. -/
def tMapEx : DigitalTwin :=
  (NewDigitalTwin "m" "x" 0).SetAttribute "a" (Value.map [("p", "q")]) 1

/-- A registry holding `tMapEx`. -/
def rMapEx : Registry := { twins := [tMapEx] }

/-! ## Reference-semantics embedding of the feature property maps

In Go, `FeatureState.Properties` and `FeatureState.DesiredProps` are
values of a map type, that is, references to a shared hash table.
Storing a `FeatureState` in `DigitalTwin.Features` and reading it back
with `GetFeature` copies the struct but not the tables: the map
headers of the copy alias the tables of the stored feature.  This
second embedding of pkg/twin makes that explicit: map objects live in a
`Heap`, struct fields hold references into it, and copying a struct
copies only the references.  The value-based embedding above remains
adequate for the operations whose behaviour does not depend on this
aliasing. -/

/-- The heap of allocated hash tables, plus the next fresh reference. -/
structure Heap where
  tables : List (Nat × List (String × Value))
  next : Nat
deriving DecidableEq

/-- Lookup among allocated tables. -/
def lookupRef {α : Type} : List (Nat × α) → Nat → Option α
  | [], _ => none
  | (r', v) :: rest, r => if r' = r then some v else lookupRef rest r

/-- Replace-or-append among allocated tables. -/
def insertRef {α : Type} : List (Nat × α) → Nat → α → List (Nat × α)
  | [], r, v => [(r, v)]
  | (r', v') :: rest, r, v =>
      if r' = r then (r, v) :: rest else (r', v') :: insertRef rest r v

/-- The Go map constructor `make(...)`: allocate a fresh table. -/
def Heap.alloc (σ : Heap) (init : List (String × Value)) : Nat × Heap :=
  (σ.next, { tables := insertRef σ.tables σ.next init, next := σ.next + 1 })

/-- Dereference a map header. -/
def Heap.read (σ : Heap) (r : Nat) : List (String × Value) :=
  (lookupRef σ.tables r).getD []

/-- Overwrite the table a map header points to. -/
def Heap.write (σ : Heap) (r : Nat) (m : List (String × Value)) : Heap :=
  { σ with tables := insertRef σ.tables r m }

/-- `FeatureState` with reference-typed map fields: `Properties` and
`DesiredProps` are map headers pointing into the heap.  Copying this
struct — as storing it in a feature map and reading it back with
`GetFeature` does — copies the references, not the tables. -/
structure FeatureStateRef where
  Properties : Nat
  DesiredProps : Nat
  Definition : List String
  LastModified : Nat
deriving DecidableEq

/-- `NewFeatureState` under reference semantics: allocates the two
tables and stamps the clock. -/
def NewFeatureStateRef (σ : Heap) (now : Nat) : FeatureStateRef × Heap :=
  let pa := σ.alloc []
  let da := pa.2.alloc []
  ({ Properties := pa.1, DesiredProps := da.1, Definition := [], LastModified := now },
   da.2)

/-- `GetProperty` under reference semantics: dereference the table and
look the key up. -/
def FeatureStateRef.GetProperty (fs : FeatureStateRef) (σ : Heap) (k : String) :
    Option Value :=
  lookupKey (σ.read fs.Properties) k

/-- `SetProperty` under reference semantics: the Go assignment writes
through the shared table behind the `Properties` header, while the
`LastModified` stamp updates only the receiver struct. -/
def FeatureStateRef.SetProperty (fs : FeatureStateRef) (σ : Heap) (k : String)
    (v : Value) (now : Nat) : FeatureStateRef × Heap :=
  ({ fs with LastModified := now },
   σ.write fs.Properties (insertKey (σ.read fs.Properties) k v))

/-- `DigitalTwin` under reference semantics: the attribute map is a
header into the heap and the features are `FeatureStateRef` structs
stored by value. -/
structure DigitalTwinRef where
  ID : String
  TwinType : String
  Definition : String
  Attributes : Nat
  Features : List (String × FeatureStateRef)
  CreatedAt : Nat
  ModifiedAt : Nat
deriving DecidableEq

/-- `NewDigitalTwin` under reference semantics. -/
def NewDigitalTwinRef (σ : Heap) (id twinType : String) (now : Nat) :
    DigitalTwinRef × Heap :=
  let aa := σ.alloc []
  ({ ID := id, TwinType := twinType, Definition := "", Attributes := aa.1
     Features := [], CreatedAt := now, ModifiedAt := now }, aa.2)

/-- `GetFeature` under reference semantics: returns a struct copy of
the stored feature whose map headers alias the stored tables. -/
def DigitalTwinRef.GetFeature (dt : DigitalTwinRef) (id : String) :
    Option FeatureStateRef :=
  lookupKey dt.Features id

/-- `AddFeature` under reference semantics. -/
def DigitalTwinRef.AddFeature (dt : DigitalTwinRef) (id : String)
    (fs : FeatureStateRef) (now : Nat) : Option TwinError × DigitalTwinRef :=
  match lookupKey dt.Features id with
  | some _ => (some .FeatureAlreadyExists, dt)
  | none =>
      (none, { dt with Features := insertKey dt.Features id fs, ModifiedAt := now })

/-- `UpdateFeature` under reference semantics. -/
def DigitalTwinRef.UpdateFeature (dt : DigitalTwinRef) (id : String)
    (fs : FeatureStateRef) (now : Nat) : Option TwinError × DigitalTwinRef :=
  match lookupKey dt.Features id with
  | none => (some .FeatureNotFound, dt)
  | some _ =>
      (none, { dt with Features := insertKey dt.Features id fs, ModifiedAt := now })

/-- Example: the feature constructed on the empty heap. -/
def c1fsEx : FeatureStateRef := (NewFeatureStateRef { tables := [], next := 0 } 0).1

/-- Example: the heap after constructing that feature and a twin. -/
def c1HeapEx : Heap :=
  (NewDigitalTwinRef (NewFeatureStateRef { tables := [], next := 0 } 0).2 "t" "ty" 0).2

/-- Example: a twin holding `c1fsEx` under feature id `"f"`. -/
def c1dtEx : DigitalTwinRef :=
  ((NewDigitalTwinRef (NewFeatureStateRef { tables := [], next := 0 } 0).2
      "t" "ty" 0).1.AddFeature "f" c1fsEx 1).2

/-! ## Helper lemmas about the map embedding -/

theorem lookupRef_insertRef_self {α : Type} (m : List (Nat × α)) (r : Nat) (v : α) :
    lookupRef (insertRef m r v) r = some v := by
  induction m with
  | nil => simp [insertRef, lookupRef]
  | cons p rest ih =>
      obtain ⟨r', v'⟩ := p
      by_cases hr : r' = r
      · simp [insertRef, lookupRef, hr]
      · simp [insertRef, lookupRef, hr, ih]

theorem lookupKey_insertKey_self {α : Type} (m : List (String × α)) (k : String) (v : α) :
    lookupKey (insertKey m k v) k = some v := by
  induction m with
  | nil => simp [insertKey, lookupKey]
  | cons p rest ih =>
      obtain ⟨k', v'⟩ := p
      by_cases hk : k' = k
      · simp [insertKey, lookupKey, hk]
      · simp [insertKey, lookupKey, hk, ih]

theorem mem_insertKey {α : Type} {m : List (String × α)} {k : String} {v : α}
    {q : String × α} (hq : q ∈ insertKey m k v) : q = (k, v) ∨ q ∈ m := by
  induction m with
  | nil => simpa [insertKey] using hq
  | cons p rest ih =>
      obtain ⟨k', v'⟩ := p
      by_cases hk : k' = k
      · simp only [insertKey, if_pos hk, List.mem_cons] at hq
        rcases hq with h | h
        · exact Or.inl h
        · exact Or.inr (List.mem_cons_of_mem _ h)
      · simp only [insertKey, if_neg hk, List.mem_cons] at hq
        rcases hq with h | h
        · exact Or.inr (by simp [h])
        · rcases ih h with h' | h'
          · exact Or.inl h'
          · exact Or.inr (List.mem_cons_of_mem _ h')

theorem mem_removeKey {α : Type} {m : List (String × α)} {k : String}
    {q : String × α} (hq : q ∈ removeKey m k) : q ∈ m := by
  induction m with
  | nil => simp [removeKey] at hq
  | cons p rest ih =>
      obtain ⟨k', v'⟩ := p
      by_cases hk : k' = k
      · simp only [removeKey, if_pos hk] at hq
        exact List.mem_cons_of_mem _ hq
      · simp only [removeKey, if_neg hk, List.mem_cons] at hq
        rcases hq with h | h
        · simp [h]
        · exact List.mem_cons_of_mem _ (ih h)

theorem lookupKey_mem {α : Type} {m : List (String × α)} {k : String} {v : α}
    (h : lookupKey m k = some v) : (k, v) ∈ m := by
  induction m with
  | nil => simp [lookupKey] at h
  | cons p rest ih =>
      obtain ⟨k', v'⟩ := p
      by_cases hk : k' = k
      · simp only [lookupKey, if_pos hk, Option.some.injEq] at h
        simp [hk.symm, h]
      · simp only [lookupKey, if_neg hk] at h
        exact List.mem_cons_of_mem _ (ih h)

theorem insertKey_lookup_self {α : Type} {m : List (String × α)} {k : String} {v : α}
    (h : lookupKey m k = some v) : insertKey m k v = m := by
  induction m with
  | nil => simp [lookupKey] at h
  | cons p rest ih =>
      obtain ⟨k', v'⟩ := p
      by_cases hk : k' = k
      · simp only [lookupKey, if_pos hk, Option.some.injEq] at h
        simp [insertKey, hk, h]
      · simp only [lookupKey, if_neg hk] at h
        simp [insertKey, hk, ih h]

theorem findTwin_eq_none_iff {l : List DigitalTwin} {id : String} :
    findTwin l id = none ↔ ∀ t ∈ l, t.ID ≠ id := by
  induction l with
  | nil => simp [findTwin]
  | cons t ts ih =>
      by_cases h : t.ID = id
      · simp [findTwin, h]
      · simp [findTwin, h, ih]

theorem findTwin_append_single {l : List DigitalTwin} {id : String}
    (h : findTwin l id = none) (dt : DigitalTwin) (hdt : dt.ID = id) :
    findTwin (l ++ [dt]) id = some dt := by
  induction l with
  | nil => simp [findTwin, hdt]
  | cons t ts ih =>
      by_cases ht : t.ID = id
      · simp [findTwin, ht] at h
      · show findTwin (t :: (ts ++ [dt])) id = some dt
        simp only [findTwin, ht, if_false] at h ⊢
        exact ih h

/-! ## Helper lemmas about the bus embedding -/

/-- The buffer contents after a sequence of non-blocking sends. -/
def fillBuf (buf : List Message) (msgs : List Message) : List Message :=
  msgs.foldl (fun b m => if b.length < chanCap then b ++ [m] else b) buf

theorem fillBuf_eq_take (msgs : List Message) : ∀ buf : List Message,
    fillBuf buf msgs = buf ++ msgs.take (chanCap - buf.length) := by
  induction msgs with
  | nil => intro buf; simp [fillBuf]
  | cons m rest ih =>
      intro buf
      by_cases hlt : buf.length < chanCap
      · have h1 : fillBuf buf (m :: rest) = fillBuf (buf ++ [m]) rest := by
          simp [fillBuf, hlt]
        rw [h1, ih]
        obtain ⟨k, hk⟩ : ∃ k, chanCap - buf.length = k + 1 :=
          ⟨chanCap - buf.length - 1, by omega⟩
        rw [hk]
        have h2 : chanCap - (buf ++ [m]).length = k := by
          simp only [List.length_append, List.length_cons, List.length_nil]
          omega
        rw [h2, List.take_succ_cons]
        simp
      · have h1 : fillBuf buf (m :: rest) = fillBuf buf rest := by
          simp [fillBuf, hlt]
        rw [h1, ih]
        have h0 : chanCap - buf.length = 0 := by omega
        simp [h0]

theorem publishAll_single (T : String) (hId n : Nat) (payloads : List Value) :
    ∀ buf : List Message,
    PubSub.publishAll
        { subscribers := [(T, [{ id := hId, buf := buf }])], nextId := n } T payloads
      = { subscribers :=
            [(T, [{ id := hId,
                    buf := fillBuf buf
                      (payloads.map (fun p => { Topic := T, Payload := p })) }])]
          nextId := n } := by
  induction payloads with
  | nil => intro buf; simp [PubSub.publishAll, fillBuf]
  | cons p rest ih =>
      intro buf
      have hstep :
          PubSub.Publish
              { subscribers := [(T, [{ id := hId, buf := buf }])], nextId := n } T p
            = { subscribers :=
                  [(T, [{ id := hId,
                          buf := if buf.length < chanCap
                            then buf ++ [{ Topic := T, Payload := p }] else buf }])]
                nextId := n } := by
        by_cases hlt : buf.length < chanCap <;>
          simp [PubSub.Publish, lookupKey, insertKey, sendNonBlocking, hlt]
      have h1 :
          PubSub.publishAll
              { subscribers := [(T, [{ id := hId, buf := buf }])], nextId := n }
              T (p :: rest)
            = PubSub.publishAll
                (PubSub.Publish
                  { subscribers := [(T, [{ id := hId, buf := buf }])], nextId := n } T p)
                T rest := rfl
      rw [h1, hstep, ih]
      rfl

theorem sendNonBlocking_id (c : Channel) (m : Message) :
    (sendNonBlocking c m).id = c.id := by
  unfold sendNonBlocking
  split <;> rfl

theorem removeFirstChan_no_match {subs : List Channel} {h : Nat}
    (hm : ∀ c ∈ subs, c.id ≠ h) : removeFirstChan subs h = subs := by
  induction subs with
  | nil => rfl
  | cons c rest ih =>
      have hc : c.id ≠ h := hm c (by simp)
      simp only [removeFirstChan, if_neg hc]
      rw [ih (fun d hd => hm d (List.mem_cons_of_mem _ hd))]

theorem insertKey_send_shape (m : List (String × List Channel)) (k : String)
    (subs : List Channel) (msg : Message) (h : lookupKey m k = some subs) :
    (insertKey m k (subs.map (fun c => sendNonBlocking c msg))).map
        (fun q => (q.1, q.2.map Channel.id))
      = m.map (fun q => (q.1, q.2.map Channel.id)) := by
  induction m with
  | nil => simp [lookupKey] at h
  | cons p rest ih =>
      obtain ⟨k', v'⟩ := p
      by_cases hk : k' = k
      · simp only [lookupKey, if_pos hk, Option.some.injEq] at h
        subst h
        simp [insertKey, hk, List.map_map, Function.comp, sendNonBlocking_id]
      · simp only [lookupKey, if_neg hk] at h
        simp only [insertKey, if_neg hk, List.map_cons]
        rw [ih h]

theorem wfTopics_iff (ps : PubSub) :
    ps.wfTopics = true ↔ ∀ p ∈ ps.subscribers, p.2 ≠ [] := by
  simp [PubSub.wfTopics, List.all_eq_true]

/-! ## Helper lemmas about Go interface equality and the scans -/

theorem goEq_some_true_iff (a b : Value) :
    goEq a b = some true ↔ a = b ∧ a.comparable = true := by
  cases a <;> cases b <;> simp [goEq, Value.comparable]

theorem goEq_self_none {a : Value} (h : a.comparable = false) : goEq a a = none := by
  cases a <;> simp_all [goEq, Value.comparable]

theorem goEq_isSome_of_comparable {a : Value} (h : a.comparable = true) (b : Value) :
    goEq a b ≠ none := by
  cases a <;> cases b <;> simp_all [goEq, Value.comparable]

/-- The predicate the scan of `FindByAttribute` effectively filters by
whenever it completes without panicking. -/
def attrMatches (k : String) (v : Value) (t : DigitalTwin) : Bool :=
  match t.GetAttribute k with
  | some w => goEq w v == some true
  | none => false

theorem findByAttrScan_eq_filter (l : List DigitalTwin) (k : String) (v : Value)
    (res : List DigitalTwin) (h : findByAttrScan l k v = some res) :
    res = l.filter (attrMatches k v) := by
  induction l generalizing res with
  | nil =>
      simp only [findByAttrScan, Option.some.injEq] at h
      simp [h.symm]
  | cons t ts ih =>
      cases hga : t.GetAttribute k with
      | none =>
          simp only [findByAttrScan, hga] at h
          have hf : attrMatches k v t = false := by simp [attrMatches, hga]
          simp [List.filter_cons, hf, ih res h]
      | some w =>
          cases hge : goEq w v with
          | none => simp [findByAttrScan, hga, hge] at h
          | some b =>
              cases b
              · simp only [findByAttrScan, hga, hge] at h
                have hf : attrMatches k v t = false := by simp [attrMatches, hga, hge]
                simp [List.filter_cons, hf, ih res h]
              · simp only [findByAttrScan, hga, hge] at h
                cases hts : findByAttrScan ts k v with
                | none => rw [hts] at h; simp at h
                | some res' =>
                    rw [hts] at h
                    simp only [Option.map_some', Option.some.injEq] at h
                    have hf : attrMatches k v t = true := by
                      simp [attrMatches, hga, hge]
                    simp [List.filter_cons, hf, ← h, ih res' hts]

theorem findByAttrScan_none_of_panic {l : List DigitalTwin} {k : String} {v : Value}
    {t : DigitalTwin} (ht : t ∈ l) {w : Value} (hw : t.GetAttribute k = some w)
    (hp : goEq w v = none) : findByAttrScan l k v = none := by
  induction l with
  | nil => simp at ht
  | cons t0 ts ih =>
      rcases List.mem_cons.mp ht with rfl | hmem
      · simp [findByAttrScan, hw, hp]
      · have hrec := ih hmem
        cases hga : t0.GetAttribute k with
        | none => simp [findByAttrScan, hga, hrec]
        | some w0 =>
            cases hge : goEq w0 v with
            | none => simp [findByAttrScan, hga, hge]
            | some b => cases b <;> simp [findByAttrScan, hga, hge, hrec]

theorem findByAttrScan_isSome_of_comparable {l : List DigitalTwin} {k : String}
    (hc : ∀ t ∈ l, ∀ w, t.GetAttribute k = some w → w.comparable = true) (v : Value) :
    (findByAttrScan l k v).isSome = true := by
  induction l with
  | nil => simp [findByAttrScan]
  | cons t ts ih =>
      have hrec := ih (fun t' ht' w hw => hc t' (List.mem_cons_of_mem _ ht') w hw)
      cases hga : t.GetAttribute k with
      | none => simpa [findByAttrScan, hga] using hrec
      | some w =>
          have hcomp := hc t (by simp) w hga
          cases hge : goEq w v with
          | none => exact absurd hge (goEq_isSome_of_comparable hcomp v)
          | some b =>
              cases b
              · simpa [findByAttrScan, hga, hge] using hrec
              · simpa [findByAttrScan, hga, hge] using hrec

/-! ## C3: the two registry scans are exact -/

/-- C3: whenever `FindByAttribute(k, v)` completes, it returns exactly
the registered twins whose attribute `k` is present and equals `v`
under the natural equality of values (no partial matching), and
`FindByFeature(fid)` returns exactly the registered twins holding a
feature named `fid`, regardless of its contents. -/
theorem c3_find_scans_exact (r : Registry) (k : String) (v : Value)
    (res : List DigitalTwin) (h : r.FindByAttribute k v = some res) (fid : String) :
    (∀ t, t ∈ res ↔ t ∈ r.twins ∧ t.GetAttribute k = some v)
    ∧ (∀ t, t ∈ r.FindByFeature fid ↔ t ∈ r.twins ∧ ∃ fs, t.GetFeature fid = some fs) := by
  constructor
  · intro t
    have hres := findByAttrScan_eq_filter r.twins k v res h
    subst hres
    rw [List.mem_filter]
    constructor
    · rintro ⟨htl, hcond⟩
      refine ⟨htl, ?_⟩
      cases hga : t.GetAttribute k with
      | none => simp [attrMatches, hga] at hcond
      | some w =>
          simp only [attrMatches, hga, beq_iff_eq] at hcond
          obtain ⟨rfl, _⟩ := (goEq_some_true_iff w v).mp hcond
          rfl
    · rintro ⟨htl, hga⟩
      refine ⟨htl, ?_⟩
      by_cases hcomp : v.comparable = true
      · simp [attrMatches, hga, (goEq_some_true_iff v v).mpr ⟨rfl, hcomp⟩]
      · have hvf : v.comparable = false := by
          cases hcv : v.comparable
          · rfl
          · exact absurd hcv hcomp
        have hnone : findByAttrScan r.twins k v = none :=
          findByAttrScan_none_of_panic htl hga (goEq_self_none hvf)
        have h' : findByAttrScan r.twins k v
            = some (List.filter (attrMatches k v) r.twins) := h
        rw [hnone] at h'
        exact absurd h' (by simp)
  · intro t
    simp [Registry.FindByFeature, List.mem_filter, Option.isSome_iff_exists]

/-- Witness for C3 on the two-twin registry `rEx`. -/
theorem c3_find_scans_exact_witness :
    (t1Ex ∈ ([t1Ex] : List DigitalTwin)
        ↔ t1Ex ∈ rEx.twins ∧ t1Ex.GetAttribute "a" = some (Value.str "x"))
    ∧ (t1Ex ∈ rEx.FindByFeature "f"
        ↔ t1Ex ∈ rEx.twins ∧ ∃ fs, t1Ex.GetFeature "f" = some fs) := by
  have h := c3_find_scans_exact rEx "a" (Value.str "x") [t1Ex] (by decide) "f"
  exact ⟨h.1 t1Ex, h.2 t1Ex⟩

/-! ## C10: the attribute scan is total only on comparable values -/

/-- C10: `FindByAttribute` compares stored attribute values with bare
interface equality, which is defined only for comparable dynamic types:
when every stored value under the queried key is comparable the scan
completes for every query value, and when some registered twin holds a
non-comparable value (a map or slice) under that key there is a query
value on which the scan panics — evaluating to `none` in this
embedding — so the operation is total only under the comparability
precondition. -/
theorem c10_scan_total_iff_comparable (r : Registry) (k : String) :
    ((∀ t ∈ r.twins, ∀ w, t.GetAttribute k = some w → w.comparable = true) →
        ∀ v, ∃ res, r.FindByAttribute k v = some res)
    ∧ (∀ t ∈ r.twins, ∀ w, t.GetAttribute k = some w → w.comparable = false →
        ∃ v, r.FindByAttribute k v = none) := by
  constructor
  · intro hc v
    exact Option.isSome_iff_exists.mp (findByAttrScan_isSome_of_comparable hc v)
  · intro t ht w hw hcomp
    exact ⟨w, findByAttrScan_none_of_panic ht hw (goEq_self_none hcomp)⟩

/-- Witness for C10: in `rMapEx` a map-valued attribute makes the scan
panic for a suitable query value. -/
theorem c10_scan_total_iff_comparable_witness :
    ∃ v, rMapEx.FindByAttribute "a" v = none :=
  (c10_scan_total_iff_comparable rMapEx "a").2 tMapEx (by decide)
    (Value.map [("p", "q")]) (by decide) rfl

/-! ## C2: publish order and capacity on one subscription -/

/-- C2: after `Subscribe(T)` on a fresh bus, a sequence of `Publish(T, p)`
calls with no consumption leaves the subscriber channel holding the
first `chanCap` (= 10) published messages in publish order — so with
`M ≤ 10` published messages exactly those `M` messages are delivered,
in order, and publishing beyond capacity silently drops the excess for
that subscriber; `Publish` is a total function of the bus state, never
blocking the publisher. -/
theorem c2_publish_order_and_capacity (T : String) (payloads : List Value) :
    lookupKey ((PubSub.publishAll (NewPubSub.Subscribe T).2 T payloads)).subscribers T
      = some [{ id := (NewPubSub.Subscribe T).1
                buf := (payloads.map (fun p => { Topic := T, Payload := p })).take chanCap }]
    ∧ (payloads.length ≤ chanCap →
        lookupKey
            ((PubSub.publishAll (NewPubSub.Subscribe T).2 T payloads)).subscribers T
          = some [{ id := (NewPubSub.Subscribe T).1
                    buf := payloads.map (fun p => { Topic := T, Payload := p }) }]) := by
  have hsub : (NewPubSub.Subscribe T).2
      = { subscribers := [(T, [{ id := 0, buf := [] }])], nextId := 1 } := rfl
  have hfst : (NewPubSub.Subscribe T).1 = 0 := rfl
  have hmain :
      lookupKey
          ((PubSub.publishAll (NewPubSub.Subscribe T).2 T payloads)).subscribers T
        = some [{ id := 0
                  buf := (payloads.map (fun p => { Topic := T, Payload := p })).take
                    chanCap }] := by
    rw [hsub, publishAll_single, fillBuf_eq_take]
    simp [lookupKey]
  refine ⟨by rw [hfst]; exact hmain, fun hlen => ?_⟩
  rw [hfst, hmain]
  have : (payloads.map (fun p => ({ Topic := T, Payload := p } : Message))).take chanCap
      = payloads.map (fun p => { Topic := T, Payload := p }) :=
    List.take_of_length_le (by simpa using hlen)
  rw [this]

/-- Witness for C2: twelve publishes on a capacity-10 channel keep the
first ten messages in order. -/
theorem c2_publish_order_and_capacity_witness :
    lookupKey
        ((PubSub.publishAll (NewPubSub.Subscribe "t").2 "t"
          (List.replicate 12 (Value.int 1)))).subscribers "t"
      = some [{ id := 0, buf := List.replicate 10 { Topic := "t", Payload := Value.int 1 } }]
    ∧ lookupKey
        ((PubSub.publishAll (NewPubSub.Subscribe "t").2 "t"
          [Value.int 1, Value.int 2])).subscribers "t"
      = some [{ id := 0
                buf := [{ Topic := "t", Payload := Value.int 1 },
                        { Topic := "t", Payload := Value.int 2 }] }] := by
  constructor
  · have h := (c2_publish_order_and_capacity "t" (List.replicate 12 (Value.int 1))).1
    exact h.trans (by decide)
  · have h := (c2_publish_order_and_capacity "t" [Value.int 1, Value.int 2]).2
      (by decide)
    exact h.trans (by decide)

/-! ## C5: the topic ⇔ nonempty-subscriber-list invariant -/

/-- C5: the invariant "a topic entry exists iff it has at least one
subscriber queue" (`wfTopics`) is preserved by every bus operation:
`Subscribe` adds the topic with one queue when it was absent,
`Unsubscribe` is a no-op for an unknown topic or unmatched handle and
removes the entry when the last queue goes, `Publish` never modifies
the map structure (topics and channel identities are untouched), and
`Close` clears all subscription state. -/
theorem c5_topic_invariant_preserved (ps : PubSub) (T : String) (h : Nat)
    (pl : Value) (hInv : ps.wfTopics = true) :
    ((ps.Subscribe T).2).wfTopics = true
    ∧ (lookupKey ps.subscribers T = none →
        lookupKey ((ps.Subscribe T).2).subscribers T
          = some [{ id := ps.nextId, buf := [] }])
    ∧ (ps.Unsubscribe T h).wfTopics = true
    ∧ (lookupKey ps.subscribers T = none → ps.Unsubscribe T h = ps)
    ∧ (∀ subs, lookupKey ps.subscribers T = some subs →
        (∀ c ∈ subs, c.id ≠ h) → ps.Unsubscribe T h = ps)
    ∧ ((ps.Publish T pl).subscribers.map (fun q => (q.1, q.2.map Channel.id))
        = ps.subscribers.map (fun q => (q.1, q.2.map Channel.id)))
    ∧ (ps.Publish T pl).wfTopics = true
    ∧ (ps.Close).subscribers = [] := by
  rw [wfTopics_iff] at hInv
  refine ⟨?_, ?_, ?_, ?_, ?_, ?_, ?_, rfl⟩
  · rw [wfTopics_iff]
    intro p hp
    have hp' : p ∈ insertKey ps.subscribers T
        (((lookupKey ps.subscribers T).getD []) ++ [{ id := ps.nextId, buf := [] }]) := hp
    rcases mem_insertKey hp' with h' | h'
    · rw [h']
      simp
    · exact hInv p h'
  · intro habs
    show lookupKey (insertKey ps.subscribers T
        (((lookupKey ps.subscribers T).getD []) ++ [{ id := ps.nextId, buf := [] }])) T
      = _
    rw [habs]
    simpa using lookupKey_insertKey_self ps.subscribers T [{ id := ps.nextId, buf := [] }]
  · rw [wfTopics_iff]
    intro p hp
    unfold PubSub.Unsubscribe at hp
    cases hlook : lookupKey ps.subscribers T with
    | none => rw [hlook] at hp; exact hInv p hp
    | some subs =>
        rw [hlook] at hp
        by_cases hlen : (removeFirstChan subs h).length = 0
        · simp only [hlen, if_pos rfl] at hp
          exact hInv p (mem_removeKey hp)
        · simp only [if_neg hlen] at hp
          rcases mem_insertKey hp with h' | h'
          · rw [h']
            intro hnil
            have hnil' : removeFirstChan subs h = [] := hnil
            exact hlen (by rw [hnil']; rfl)
          · exact hInv p h'
  · intro habs
    unfold PubSub.Unsubscribe
    rw [habs]
  · intro subs hlook hm
    have hsubs : removeFirstChan subs h = subs := removeFirstChan_no_match hm
    have hne : subs ≠ [] := hInv (T, subs) (lookupKey_mem hlook)
    have hlen : ¬ subs.length = 0 := by
      intro h0
      exact hne (List.length_eq_zero.mp h0)
    simp only [PubSub.Unsubscribe, hlook, hsubs, if_neg hlen]
    rw [insertKey_lookup_self hlook]
  · unfold PubSub.Publish
    cases hlook : lookupKey ps.subscribers T with
    | none => rfl
    | some subs => exact insertKey_send_shape ps.subscribers T subs _ hlook
  · rw [wfTopics_iff]
    intro p hp
    unfold PubSub.Publish at hp
    cases hlook : lookupKey ps.subscribers T with
    | none => rw [hlook] at hp; exact hInv p hp
    | some subs =>
        rw [hlook] at hp
        rcases mem_insertKey hp with h' | h'
        · rw [h']
          have hne : subs ≠ [] := hInv (T, subs) (lookupKey_mem hlook)
          simpa using hne
        · exact hInv p h'

/-- Witness for C5 at a concrete one-topic bus state, showing the
unmatched-handle no-op. -/
theorem c5_topic_invariant_preserved_witness :
    PubSub.Unsubscribe
        { subscribers := [("a", [{ id := 0, buf := [] }])], nextId := 1 } "a" 5
      = { subscribers := [("a", [{ id := 0, buf := [] }])], nextId := 1 } :=
  (c5_topic_invariant_preserved
      { subscribers := [("a", [{ id := 0, buf := [] }])], nextId := 1 } "a" 5
      (Value.int 0) (by decide)).2.2.2.2.1
    [{ id := 0, buf := [] }] (by decide) (by decide)

/-! ## C6: FeatureState mutators stamp `LastModified` -/

/-- C6: every mutating FeatureState operation — `SetProperty`,
`RemoveProperty`, `SetDesiredProperty`, `RemoveDesiredProperty`,
`SetDefinition` — updates the `lastModified` timestamp to the clock
value of the call. -/
theorem c6_mutators_update_lastModified (fs : FeatureState) (k : String)
    (v : Value) (ds : List String) (now : Nat) :
    (fs.SetProperty k v now).LastModified = now
    ∧ (fs.RemoveProperty k now).LastModified = now
    ∧ (fs.SetDesiredProperty k v now).LastModified = now
    ∧ (fs.RemoveDesiredProperty k now).LastModified = now
    ∧ (fs.SetDefinition ds now).LastModified = now :=
  ⟨rfl, rfl, rfl, rfl, rfl⟩

/-! ## C8: feature-level error cases -/

/-- C8: adding a feature twice under the same id fails the second time
with `FeatureAlreadyExists` and leaves the twin (and the first stored
feature) in place; `UpdateFeature` and `RemoveFeature` on an absent
feature id fail with `FeatureNotFound`. -/
theorem c8_feature_error_cases (dt : DigitalTwin) (id : String)
    (fs fs2 : FeatureState) (n1 n2 n3 n4 : Nat)
    (habs : dt.GetFeature id = none) :
    (dt.AddFeature id fs n1).1 = none
    ∧ ((dt.AddFeature id fs n1).2.AddFeature id fs2 n2).1
        = some TwinError.FeatureAlreadyExists
    ∧ ((dt.AddFeature id fs n1).2.AddFeature id fs2 n2).2 = (dt.AddFeature id fs n1).2
    ∧ (dt.AddFeature id fs n1).2.GetFeature id = some fs
    ∧ (dt.UpdateFeature id fs2 n3).1 = some TwinError.FeatureNotFound
    ∧ (dt.RemoveFeature id n4).1 = some TwinError.FeatureNotFound := by
  have habs' : lookupKey dt.Features id = none := habs
  have hlook : lookupKey (insertKey dt.Features id fs) id = some fs :=
    lookupKey_insertKey_self _ _ _
  refine ⟨?_, ?_, ?_, ?_, ?_, ?_⟩
  · simp [DigitalTwin.AddFeature, habs']
  · simp [DigitalTwin.AddFeature, habs', hlook]
  · simp [DigitalTwin.AddFeature, habs', hlook]
  · simp [DigitalTwin.AddFeature, DigitalTwin.GetFeature, habs', hlook]
  · simp [DigitalTwin.UpdateFeature, habs']
  · simp [DigitalTwin.RemoveFeature, habs']

/-- Witness for C8 at a concrete twin with no feature `"f"`. -/
theorem c8_feature_error_cases_witness :
    ((NewDigitalTwin "t" "ty" 0).AddFeature "f" (NewFeatureState 0) 1).1 = none
    ∧ (((NewDigitalTwin "t" "ty" 0).AddFeature "f" (NewFeatureState 0) 1).2.AddFeature
        "f" (NewFeatureState 5) 2).1 = some TwinError.FeatureAlreadyExists
    ∧ (((NewDigitalTwin "t" "ty" 0).AddFeature "f" (NewFeatureState 0) 1).2.AddFeature
        "f" (NewFeatureState 5) 2).2
        = ((NewDigitalTwin "t" "ty" 0).AddFeature "f" (NewFeatureState 0) 1).2
    ∧ ((NewDigitalTwin "t" "ty" 0).AddFeature "f" (NewFeatureState 0) 1).2.GetFeature "f"
        = some (NewFeatureState 0)
    ∧ ((NewDigitalTwin "t" "ty" 0).UpdateFeature "f" (NewFeatureState 5) 3).1
        = some TwinError.FeatureNotFound
    ∧ ((NewDigitalTwin "t" "ty" 0).RemoveFeature "f" 4).1
        = some TwinError.FeatureNotFound :=
  c8_feature_error_cases (NewDigitalTwin "t" "ty" 0) "f" (NewFeatureState 0)
    (NewFeatureState 5) 1 2 3 4 (by decide)

/-! ## C7: registry operations on an absent id -/

/-- C7: `Get`, `Update` (of a twin with that id) and `Delete` on an id
absent from the registry each fail with `TwinNotFound`. -/
theorem c7_absent_id_twin_not_found (r : Registry) (id : String) (dt : DigitalTwin)
    (habs : findTwin r.twins id = none) (hid : dt.ID = id) :
    r.Get id = .error RegError.TwinNotFound
    ∧ (r.Update dt).1 = some RegError.TwinNotFound
    ∧ (r.Update dt).2 = r
    ∧ (r.Delete id).1 = some RegError.TwinNotFound
    ∧ (r.Delete id).2 = r := by
  refine ⟨?_, ?_, ?_, ?_, ?_⟩ <;>
    simp [Registry.Get, Registry.Update, Registry.Delete, hid, habs]

/-- Witness for C7 at the empty registry and id `"z"`. -/
theorem c7_absent_id_twin_not_found_witness :
    Registry.Get { twins := [] } "z" = .error RegError.TwinNotFound
    ∧ (Registry.Update { twins := [] } (NewDigitalTwin "z" "ty" 0)).1
        = some RegError.TwinNotFound
    ∧ (Registry.Update { twins := [] } (NewDigitalTwin "z" "ty" 0)).2 = { twins := [] }
    ∧ (Registry.Delete { twins := [] } "z").1 = some RegError.TwinNotFound
    ∧ (Registry.Delete { twins := [] } "z").2 = { twins := [] } :=
  c7_absent_id_twin_not_found { twins := [] } "z" (NewDigitalTwin "z" "ty" 0) rfl rfl

/-! ## C4: duplicate `Create` -/

/-- C4: when the registry already holds a twin under id `X`, `Create`
of another twin whose id is also `X` fails with `TwinAlreadyExists`,
leaves the registry unchanged, and the existing entry for `X` is still
returned unmodified by `Get`. -/
theorem c4_create_duplicate_unchanged (r : Registry) (X : String)
    (t dt2 : DigitalTwin) (hget : r.Get X = .ok t) (hid : dt2.ID = X) :
    (r.Create dt2).1 = some RegError.TwinAlreadyExists
    ∧ (r.Create dt2).2 = r
    ∧ ((r.Create dt2).2).Get X = .ok t := by
  have hfind : findTwin r.twins X = some t := by
    unfold Registry.Get at hget
    cases hf : findTwin r.twins X with
    | none => rw [hf] at hget; exact absurd hget (by simp)
    | some u => rw [hf] at hget; simpa using hget
  refine ⟨?_, ?_, ?_⟩
  · simp [Registry.Create, hid, hfind]
  · simp [Registry.Create, hid, hfind]
  · simp [Registry.Create, Registry.Get, hid, hfind]

/-- Witness for C4: creating a second twin with id `"t1"` in `rEx`. -/
theorem c4_create_duplicate_unchanged_witness :
    (rEx.Create (NewDigitalTwin "t1" "other" 5)).1 = some RegError.TwinAlreadyExists
    ∧ (rEx.Create (NewDigitalTwin "t1" "other" 5)).2 = rEx
    ∧ ((rEx.Create (NewDigitalTwin "t1" "other" 5)).2).Get "t1" = .ok t1Ex :=
  c4_create_duplicate_unchanged rEx "t1" t1Ex (NewDigitalTwin "t1" "other" 5)
    (by simp [rEx, t1Ex, t2Ex, Registry.Get, findTwin, NewDigitalTwin,
      DigitalTwin.SetAttribute]) rfl

/-! ## C9: create then get -/

/-- C9: for a fresh id, `NewDigitalTwin(id, type)` followed by a
successful `Create` and a `Get(id)` returns a twin whose `ID` is `id`
and whose type is `type`, and at creation `createdAt` equals
`modifiedAt`. -/
theorem c9_create_then_get (r : Registry) (id ty : String) (now : Nat)
    (habs : findTwin r.twins id = none) :
    (r.Create (NewDigitalTwin id ty now)).1 = none
    ∧ ((r.Create (NewDigitalTwin id ty now)).2).Get id = .ok (NewDigitalTwin id ty now)
    ∧ (NewDigitalTwin id ty now).ID = id
    ∧ (NewDigitalTwin id ty now).TwinType = ty
    ∧ (NewDigitalTwin id ty now).CreatedAt = (NewDigitalTwin id ty now).ModifiedAt := by
  have hfind : findTwin (r.twins ++ [NewDigitalTwin id ty now]) id
      = some (NewDigitalTwin id ty now) :=
    findTwin_append_single habs _ rfl
  refine ⟨?_, ?_, rfl, rfl, rfl⟩
  · simp [Registry.Create, NewDigitalTwin, habs]
  · simp [Registry.Create, Registry.Get, NewDigitalTwin, habs] at hfind ⊢
    simp [hfind]

/-- Witness for C9 at the empty registry. -/
theorem c9_create_then_get_witness :
    (Registry.Create { twins := [] } (NewDigitalTwin "id1" "ty1" 7)).1 = none
    ∧ ((Registry.Create { twins := [] } (NewDigitalTwin "id1" "ty1" 7)).2).Get "id1"
        = .ok (NewDigitalTwin "id1" "ty1" 7)
    ∧ (NewDigitalTwin "id1" "ty1" 7).ID = "id1"
    ∧ (NewDigitalTwin "id1" "ty1" 7).TwinType = "ty1"
    ∧ (NewDigitalTwin "id1" "ty1" 7).CreatedAt
        = (NewDigitalTwin "id1" "ty1" 7).ModifiedAt :=
  c9_create_then_get { twins := [] } "id1" "ty1" 7 rfl

/-! ## C1: the copy returned by `GetFeature` aliases the stored feature -/

/-- Counterexample to C1 as stated: at a concrete twin and heap, the
property map of the `FeatureState` returned by `GetFeature` aliases the
stored feature's hash table, so `SetProperty` on the returned copy
changes the property observable through the twin immediately, with no
`UpdateFeature` call — before the call the twin's stored feature has no
property `"p"`, after it the stored feature already reports it. -/
theorem c1_aliasing_counterexample :
    c1dtEx.GetFeature "f" = some c1fsEx
    ∧ (c1dtEx.GetFeature "f").map (fun f => f.GetProperty c1HeapEx "p") = some none
    ∧ (c1dtEx.GetFeature "f").map
        (fun f => f.GetProperty (c1fsEx.SetProperty c1HeapEx "p" (Value.int 1) 2).2 "p")
      = some (some (Value.int 1)) := by decide

/-- C1 (amended): `GetFeature(id)` returns a struct copy of the stored
`FeatureState` plus a presence flag, but the map headers of the copy
alias the stored feature's tables: `SetProperty` on the returned copy
writes through to the feature observable inside the twin without any
`UpdateFeature` call; only the value-typed struct fields stay
disconnected — the stored struct, hence its `lastModified`, is
unchanged until the caller re-submits the mutated copy through
`UpdateFeature`, which replaces the stored struct. -/
theorem c1_getFeature_aliased_copy (dt : DigitalTwinRef) (σ : Heap) (id : String)
    (fs : FeatureStateRef) (h : dt.GetFeature id = some fs) (k : String) (v : Value)
    (n1 n2 : Nat) :
    dt.GetFeature id = some fs
    ∧ (dt.GetFeature id).map
        (fun f => f.GetProperty (fs.SetProperty σ k v n1).2 k) = some (some v)
    ∧ (dt.GetFeature id).map (fun f => f.LastModified) = some fs.LastModified
    ∧ (fs.SetProperty σ k v n1).1.LastModified = n1
    ∧ (dt.UpdateFeature id (fs.SetProperty σ k v n1).1 n2).2.GetFeature id
        = some (fs.SetProperty σ k v n1).1 := by
  have h' : lookupKey dt.Features id = some fs := h
  refine ⟨h, ?_, ?_, rfl, ?_⟩
  · rw [h]
    simp [FeatureStateRef.GetProperty, FeatureStateRef.SetProperty,
      Heap.read, Heap.write, lookupRef_insertRef_self, lookupKey_insertKey_self]
  · rw [h, Option.map_some']
  · simp [DigitalTwinRef.UpdateFeature, h', DigitalTwinRef.GetFeature,
      lookupKey_insertKey_self]

/-- Witness for the amended C1 at the concrete aliasing scenario. -/
theorem c1_getFeature_aliased_copy_witness :
    (c1dtEx.GetFeature "f").map
        (fun f => f.GetProperty (c1fsEx.SetProperty c1HeapEx "q" (Value.int 7) 3).2 "q")
      = some (some (Value.int 7))
    ∧ (c1dtEx.UpdateFeature "f"
          (c1fsEx.SetProperty c1HeapEx "q" (Value.int 7) 3).1 4).2.GetFeature "f"
        = some (c1fsEx.SetProperty c1HeapEx "q" (Value.int 7) 3).1 := by
  have h := c1_getFeature_aliased_copy c1dtEx c1HeapEx "f" c1fsEx (by decide) "q"
    (Value.int 7) 3 4
  exact ⟨h.2.1, h.2.2.2.2⟩

end GoDigitalTwin
